import Mathlib

/-!
# isatty (Windows): terminal detection

A shallow embedding of `isatty_windows.go`.

* A Go `string` is its sequence of bytes (`GoString`); string literals of the
  source are written with `lit`.
* Machine integers are naturals, reduced modulo `2^16` / `2^32` where the source
  computes on `uint16` / `uint32`.
* The operating system is a `Machine`: for each of the four DLL procedures the
  source resolves, either nothing (the DLL does not export it) or the answer the
  procedure gives for a descriptor.
* A Go function call is an `Exec`: the system calls it issued, in order, and
  either the value it returned or a run-time panic.
-/

set_option maxRecDepth 100000

namespace Isatty

/-! ## Strings -/

/-- A Go string: a sequence of bytes (naturals below 256; nothing in the package
depends on that bound). -/
abbrev GoString := List Nat

/-- The bytes `utf8.EncodeRune` writes for the rune `r`
(invalid runes are written as U+FFFD). -/
def EncodeRune (r : Nat) : GoString :=
  if r ≤ 0x7F then [r]
  else if r ≤ 0x7FF then [0xC0 + r / 64, 0x80 + r % 64]
  else if r > 0x10FFFF ∨ (0xD800 ≤ r ∧ r ≤ 0xDFFF) then [0xEF, 0xBF, 0xBD]
  else if r ≤ 0xFFFF then [0xE0 + r / 4096, 0x80 + (r / 64) % 64, 0x80 + r % 64]
  else [0xF0 + r / 262144, 0x80 + (r / 4096) % 64, 0x80 + (r / 64) % 64, 0x80 + r % 64]

/-- The conversion `string(runes)`: every rune UTF-8 encoded, in order. -/
def stringOfRunes : List Nat → GoString
  | [] => []
  | r :: rs => EncodeRune r ++ stringOfRunes rs

/-- A string literal of the source, as the Go string it denotes. -/
def lit (s : String) : GoString :=
  stringOfRunes (s.toList.map Char.toNat)

/-- The byte `-`, the separator `isCygwinPipeName` splits on. -/
def dash : Nat := 45

/-- The call `strings.Split(s, sep)` for a separator of one byte: the pieces of `s`
between consecutive occurrences of `sep` (one more piece than there are separators). -/
def Split (s : GoString) (sep : Nat) : List GoString :=
  match s with
  | [] => [[]]
  | c :: cs =>
    if c = sep then [] :: Split cs sep
    else
      match Split cs sep with
      | [] => [[c]]
      | t :: ts => (c :: t) :: ts

/-- The call `strings.Join(a, sep)` for a separator of one byte. -/
def Join (a : List GoString) (sep : Nat) : GoString :=
  match a with
  | [] => []
  | [t] => t
  | t :: u :: ts => t ++ sep :: Join (u :: ts) sep

/-- The call `strings.HasPrefix(s, p)`:
`len(s) >= len(p) && s[:len(p)] == p`. -/
def HasPrefix (s p : GoString) : Bool :=
  decide (p.length ≤ s.length) && (s.take p.length == p)

/-- The Go index expression `token[i]` on a slice of strings
(every use in the source is guarded by `len(token) >= 5`). -/
def index (token : List GoString) (i : Nat) : GoString :=
  token.getD i []

/-- Check pipe name is used for cygwin/msys2 pty. -/
def isCygwinPipeName (name : GoString) : Bool :=
  let token := Split name dash
  if token.length < 5 then false
  else if index token 0 ≠ lit "\\msys" ∧
      index token 0 ≠ lit "\\cygwin" ∧
      index token 0 ≠ lit "\\Device\\NamedPipe\\msys" ∧
      index token 0 ≠ lit "\\Device\\NamedPipe\\cygwin" then false
  else if index token 1 = [] then false
  else if !(HasPrefix (index token 2) (lit "pty")) then false
  else if index token 3 ≠ lit "from" ∧ index token 3 ≠ lit "to" then false
  else if index token 4 ≠ lit "master" then false
  else true

/-- The call `utf16.Decode(s)`: the runes of a UTF-16 sequence, a surrogate that is
not part of a valid pair being replaced by U+FFFD. -/
def Decode : List Nat → List Nat
  | [] => []
  | [r] => if r < 0xD800 ∨ 0xE000 ≤ r then [r] else [0xFFFD]
  | r :: r2 :: rest =>
    if r < 0xD800 ∨ 0xE000 ≤ r then r :: Decode (r2 :: rest)
    else if r < 0xDC00 ∧ 0xDC00 ≤ r2 ∧ r2 < 0xE000 then
      ((r - 0xD800) * 1024 + (r2 - 0xDC00) + 0x10000) :: Decode rest
    else 0xFFFD :: Decode (r2 :: rest)

/-- The units of `s` before its first NUL unit. -/
def untilNUL : List Nat → List Nat
  | [] => []
  | u :: us => if u = 0 then [] else u :: untilNUL us

/-- The call `syscall.UTF16ToString(s)`: the UTF-16 sequence `s`, cut at its first
NUL unit, decoded and returned as a string, `string(utf16.Decode(s))`. -/
def UTF16ToString (s : List Nat) : GoString :=
  stringOfRunes (Decode (untilNUL s))

/-! ## Executions -/

/-- The system calls the package issues, with the arguments it passes. -/
inductive SysCall where
  | GetConsoleMode (fd : Nat)
  | NtQueryObject (fd : Nat) (infoClass : Nat) (length : Nat)
  | GetFileType (fd : Nat)
  | GetFileInformationByHandleEx (fd : Nat) (infoClass : Nat) (size : Nat)
  deriving DecidableEq, Repr

/-- How a Go call ends: it returns a value, or it panics. -/
inductive Outcome (α : Type) where
  | ret (a : α)
  | panic
  deriving DecidableEq, Repr

/-- A Go call: the system calls it issued, in order, and how it ended. -/
structure Exec (α : Type) where
  calls : List SysCall
  out : Outcome α
  deriving DecidableEq, Repr

/-- Sequencing: a panic ends the execution, nothing after it is run. -/
def Exec.bind {α β : Type} (x : Exec α) (f : α → Exec β) : Exec β :=
  match x.out with
  | .panic => ⟨x.calls, .panic⟩
  | .ret a => ⟨x.calls ++ (f a).calls, (f a).out⟩

instance : Monad Exec where
  pure a := ⟨[], .ret a⟩
  bind := Exec.bind

/-- A run-time panic. -/
def panic {α : Type} : Exec α := ⟨[], .panic⟩

/-- Issue the system call `c`, which answers `reply`. -/
def Syscall {ρ : Type} (c : SysCall) (reply : ρ) : Exec ρ := ⟨[c], .ret reply⟩

/-- The Go slice expression `a[lo:hi]` on an array:
it panics unless `lo <= hi <= len(a)`. -/
def slice (a : List Nat) (lo hi : Nat) : Exec (List Nat) :=
  if lo ≤ hi ∧ hi ≤ a.length then pure ((a.drop lo).take (hi - lo)) else panic

/-- The array `[n]uint16` after the operating system wrote `written` at its start:
`n` units of 16 bits, zero where nothing was written. -/
def array16 (n : Nat) (written : List Nat) : List Nat :=
  ((written.map (fun u => u % 65536)) ++ List.replicate n 0).take n

/-! ## The operating system -/

/-- Errors of the package: `errors.New(text)`, a `syscall.Errno` returned as an
`error` (never nil as an interface, also for the number 0), and the
error of a DLL procedure that cannot be found. -/
inductive GoError where
  | errorString (text : String)
  | Errno (e : Nat)
  | DLLError (procName : String)
  deriving DecidableEq, Repr

/-- What `NtQueryObject` leaves behind: its status `r`, the error number `e`, the
contents it wrote to the buffer and the returned length. -/
structure NtQueryObjectReply where
  r : Nat
  e : Nat
  buf : List Nat
  result : Nat

/-- What `GetFileInformationByHandleEx` leaves behind: its result `r`, the error
number `e` and the contents it wrote to the buffer. -/
structure FileInfoReply where
  r : Nat
  e : Nat
  buf : List Nat

/-- The machine the program runs on: for each procedure, `none` when the DLL does
not export it, else its answer for a descriptor. `GetConsoleMode` and `GetFileType`
answer with a result and an error number. -/
structure Machine where
  GetConsoleMode : Option (Nat → Nat × Nat)
  GetFileInformationByHandleEx : Option (Nat → FileInfoReply)
  GetFileType : Option (Nat → Nat × Nat)
  NtQueryObject : Option (Nat → NtQueryObjectReply)

/-- A `syscall.LazyProc`: a procedure of a DLL, resolved when first used. -/
structure LazyProc (β : Type) where
  procName : String
  proc : Option β

/-- The method `(*LazyProc).Find`: an error when the procedure cannot be found. -/
def LazyProc.Find {β : Type} (p : LazyProc β) : Option GoError :=
  match p.proc with
  | some _ => none
  | none => some (.DLLError p.procName)

/-- The method `(*LazyProc).Addr`: the procedure; it panics when the procedure
cannot be found (and on a nil receiver). -/
def Addr {β : Type} (p : Option (LazyProc β)) : Exec β :=
  match p with
  | none => panic
  | some lp =>
    match lp.proc with
    | some f => pure f
    | none => panic

/-- The information class passed to `NtQueryObject`. -/
def objectNameInfo : Nat := 1

/-- The information class passed to `GetFileInformationByHandleEx`. -/
def fileNameInfo : Nat := 2

/-- The file type `GetFileType` reports for a pipe. -/
def fileTypePipe : Nat := 3

/-- The constant `syscall.MAX_PATH`. -/
def MAX_PATH : Nat := 260

/-- The package-level variables: pointers to lazy procedures (`none` is nil). -/
structure Vars where
  procGetConsoleMode : Option (LazyProc (Nat → Nat × Nat))
  procGetFileInformationByHandleEx : Option (LazyProc (Nat → FileInfoReply))
  procGetFileType : Option (LazyProc (Nat → Nat × Nat))
  procNtQueryObject : Option (LazyProc (Nat → NtQueryObjectReply))

/-- The `var` block: every variable is a fresh `NewProc`, never nil. -/
def packageVars (m : Machine) : Vars where
  procGetConsoleMode := some ⟨"GetConsoleMode", m.GetConsoleMode⟩
  procGetFileInformationByHandleEx :=
    some ⟨"GetFileInformationByHandleEx", m.GetFileInformationByHandleEx⟩
  procGetFileType := some ⟨"GetFileType", m.GetFileType⟩
  procNtQueryObject := some ⟨"NtQueryObject", m.NtQueryObject⟩

/-- The variables once `init()` has run at process start:
it checks if GetFileInformationByHandleEx is available, and nothing else. -/
def init (m : Machine) : Vars :=
  let v := packageVars m
  match v.procGetFileInformationByHandleEx with
  | some p =>
    if (p.Find).isSome then { v with procGetFileInformationByHandleEx := none } else v
  | none => v

/-! ## The package -/

/-- IsTerminal return true if the file descriptor is terminal. -/
def IsTerminal (v : Vars) (fd : Nat) : Exec Bool := do
  let GetConsoleMode ← Addr v.procGetConsoleMode
  let (r, e) ← Syscall (.GetConsoleMode fd) (GetConsoleMode fd)
  return (r != 0 && e == 0)

/-- The `uint16` subtraction `a - b`. -/
def sub16 (a b : Nat) : Nat := (a % 65536 + 65536 - b % 65536) % 65536

/-- The `uint16` addition `a + b`. -/
def add16 (a b : Nat) : Nat := (a % 65536 + b % 65536) % 65536

/-- The lower bound of the slice: `offset := (result - maxLength) / 2`. -/
def nameOffset (result maxLength : Nat) : Nat := sub16 result maxLength / 2

/-- The upper bound of the slice: `end := offset + maxLength/2`. -/
def nameEnd (result maxLength : Nat) : Nat :=
  add16 (nameOffset result maxLength) (maxLength % 65536 / 2)

/-- Called getFileNameByHandle in the source: it uses NtQueryObject to get the full
name of the file behind a handle. -/
def getFileNameByHandle (v : Vars) (fd : Nat) : Exec (GoString × Option GoError) :=
  match v.procNtQueryObject with
  | none => return ([], some (.errorString "ntdll.dll: NtQueryObject not supported"))
  | some _ => do
    let NtQueryObject ← Addr v.procNtQueryObject
    let reply ← Syscall (.NtQueryObject fd objectNameInfo (2 * (2 * MAX_PATH)))
      (NtQueryObject fd)
    let buf := array16 (2 * MAX_PATH) reply.buf
    let result := reply.result % 65536
    if reply.r ≠ 0 then return ([], some (.Errno reply.e))
    else
      let maxLength := buf.getD 1 0
      if maxLength = 0 ∨ result ≤ maxLength then
        return ([], some (.errorString "cannot acquired file info or unnamed object"))
      else
        let s ← slice buf (nameOffset result maxLength) (nameEnd result maxLength)
        return (UTF16ToString s, none)

/-- The `uint32` read at the start of the buffer (the machine is little-endian):
`l := *(*uint32)(unsafe.Pointer(&buf))`. -/
def nameLength (buf : List Nat) : Nat :=
  (buf.getD 0 0 % 65536 + 65536 * (buf.getD 1 0 % 65536)) % 4294967296

/-- Called getFileNameByHandleEx in the source: it uses GetFileInformationByHandleEx
to get the name of the file behind a handle. -/
def getFileNameByHandleEx (v : Vars) (fd : Nat) : Exec (GoString × Option GoError) :=
  match v.procGetFileInformationByHandleEx with
  | none =>
    return ([], some (.errorString "kernel32.dll: GetFileInformationByHandleEx not supported"))
  | some _ => do
    let GetFileType ← Addr v.procGetFileType
    let (ft, e) ← Syscall (.GetFileType fd) (GetFileType fd)
    if ft ≠ fileTypePipe ∨ e ≠ 0 then return ([], some (.Errno e))
    else
      let GetFileInformationByHandleEx ← Addr v.procGetFileInformationByHandleEx
      let reply ← Syscall (.GetFileInformationByHandleEx fd fileNameInfo ((2 + MAX_PATH) * 2))
        (GetFileInformationByHandleEx fd)
      let buf := array16 (2 + MAX_PATH) reply.buf
      if reply.r = 0 ∨ reply.e ≠ 0 then return ([], some (.Errno reply.e))
      else
        let l := nameLength buf
        let s ← slice buf 2 ((2 + l / 2) % 4294967296)
        return (UTF16ToString s, none)

/-- IsCygwinTerminal return true if the file descriptor is a cygwin or msys2
terminal. -/
def IsCygwinTerminal (v : Vars) (fd : Nat) : Exec Bool := do
  let (name, err) ← getFileNameByHandle v fd
  if err = none ∧ name.length > 0 then return isCygwinPipeName name
  else
    let (name, err) ← getFileNameByHandleEx v fd
    if err = none ∧ name.length > 0 then return isCygwinPipeName name
    else return false

/-- A machine for tests: a console on descriptor 0, and on descriptor 5 a pipe whose
name `NtQueryObject` reports as `nameA` (after a header of 8 units, as on a 64-bit
system) and `GetFileInformationByHandleEx` as `nameB`. -/
def ptyMachine (nameA nameB : String) : Machine where
  GetConsoleMode := some (fun fd => if fd = 0 then (1, 0) else (0, 6))
  GetFileInformationByHandleEx := some (fun fd =>
    if fd = 5 then ⟨1, 0, (2 * nameB.length) :: 0 :: nameB.toList.map Char.toNat⟩
    else ⟨0, 6, []⟩)
  GetFileType := some (fun fd => if fd = 5 then (3, 0) else if fd = 0 then (2, 0) else (0, 6))
  NtQueryObject := some (fun fd =>
    if fd = 5 then
      ⟨0, 0, (2 * nameA.length) :: (2 * nameA.length + 2) :: List.replicate 6 0
        ++ nameA.toList.map Char.toNat, 16 + 2 * nameA.length + 2⟩
    else ⟨3221225480, 0, [], 0⟩)

/-- A machine whose `ntdll.dll` does not export `NtQueryObject`; descriptor 5 is a pipe
that `GetFileInformationByHandleEx` names `\msys-1234-pty0-from-master`. -/
def machineWithoutNtQueryObject : Machine :=
  { ptyMachine "" "\\msys-1234-pty0-from-master" with NtQueryObject := none }

/-- A machine on which `NtQueryObject` succeeds for every descriptor, writes
`maxLength` as `Name.MaximumLength` and reports the length `result`. -/
def lengthMachine (maxLength result : Nat) : Machine :=
  { ptyMachine "" "" with NtQueryObject := some (fun _ => ⟨0, 0, [0, maxLength], result⟩) }

/-- A machine on which `NtQueryObject` succeeds for every descriptor with
`Name.MaximumLength = 700` and the reported length 1800, while descriptor 5 is a pipe
that `GetFileInformationByHandleEx` names `\msys-1234-pty0-from-master`. -/
def overlongMachine : Machine :=
  { ptyMachine "" "\\msys-1234-pty0-from-master" with
    NtQueryObject := some (fun _ => ⟨0, 0, [0, 700], 1800⟩) }

/-! ## Splitting and joining -/

theorem Split_ne_nil (s : GoString) (sep : Nat) : Split s sep ≠ [] := by
  cases s with
  | nil => simp [Split]
  | cons c cs =>
    unfold Split
    split
    · simp
    · split <;> simp

theorem Join_cons_cons (t u : GoString) (ts : List GoString) (sep : Nat) :
    Join (t :: u :: ts) sep = t ++ sep :: Join (u :: ts) sep := by
  simp [Join]

theorem Join_cons_of_ne_nil (t : GoString) (ts : List GoString) (sep : Nat) (h : ts ≠ []) :
    Join (t :: ts) sep = t ++ sep :: Join ts sep := by
  cases ts with
  | nil => exact absurd rfl h
  | cons u us => simp [Join]

theorem Join_Split (s : GoString) (sep : Nat) : Join (Split s sep) sep = s := by
  induction s with
  | nil => simp [Split, Join]
  | cons c cs ih =>
    unfold Split
    split
    · next h =>
      rw [Join_cons_of_ne_nil _ _ _ (Split_ne_nil cs sep), ih, h]
      rfl
    · split
      · next h => exact absurd h (Split_ne_nil cs sep)
      · next t ts h =>
        rw [h] at ih
        cases ts with
        | nil => simpa [Join] using ih
        | cons u us =>
          rw [Join_cons_cons] at ih ⊢
          simp [← ih]

theorem Split_cons_sep (cs : GoString) (sep : Nat) :
    Split (sep :: cs) sep = [] :: Split cs sep := by
  simp [Split]

theorem Split_cons_ne (c : Nat) (cs : GoString) (sep : Nat) (t : GoString)
    (ts : List GoString) (hc : c ≠ sep) (ht : Split cs sep = t :: ts) :
    Split (c :: cs) sep = (c :: t) :: ts := by
  simp [Split, hc, ht]

theorem Split_append_sep (s e : GoString) (sep : Nat) :
    Split (s ++ sep :: e) sep = Split s sep ++ Split e sep := by
  induction s with
  | nil => simp [Split_cons_sep, Split]
  | cons c cs ih =>
    simp only [List.cons_append]
    by_cases hc : c = sep
    · subst hc
      rw [Split_cons_sep, Split_cons_sep, ih]
      rfl
    · cases h : Split cs sep with
      | nil => exact absurd h (Split_ne_nil cs sep)
      | cons t ts =>
        rw [Split_cons_ne c cs sep t ts hc h,
          Split_cons_ne c (cs ++ sep :: e) sep t (ts ++ Split e sep) hc (by rw [ih, h]; rfl)]
        rfl

theorem HasPrefix_iff (s p : GoString) : HasPrefix s p = true ↔ p <+: s := by
  unfold HasPrefix
  rw [Bool.and_eq_true, decide_eq_true_eq, beq_iff_eq, List.prefix_iff_eq_take]
  constructor
  · rintro ⟨_, h⟩
    exact h.symm
  · intro h
    refine ⟨?_, h.symm⟩
    have := congrArg List.length h
    simp at this
    omega

theorem classify_tokens (t : List GoString) (a b c d p f g m : GoString) :
    (if t.length < 5 then false
      else if index t 0 ≠ a ∧ index t 0 ≠ b ∧ index t 0 ≠ c ∧ index t 0 ≠ d then false
      else if index t 1 = [] then false
      else if !(HasPrefix (index t 2) p) then false
      else if index t 3 ≠ f ∧ index t 3 ≠ g then false
      else if index t 4 ≠ m then false
      else true) = true ↔
      ∃ t0 t1 t2 t3 t4 rest, t = t0 :: t1 :: t2 :: t3 :: t4 :: rest ∧
        (t0 = a ∨ t0 = b ∨ t0 = c ∨ t0 = d) ∧
        t1 ≠ [] ∧ p <+: t2 ∧ (t3 = f ∨ t3 = g) ∧ t4 = m := by
  rcases t with _ | ⟨t0, _ | ⟨t1, _ | ⟨t2, _ | ⟨t3, _ | ⟨t4, rest⟩⟩⟩⟩⟩ <;>
    simp [index, HasPrefix_iff]
  constructor
  · intro h
    exact ⟨t0, t1, t2, t3, t4, ⟨rfl, rfl, rfl, rfl, rfl⟩, h⟩
  · rintro ⟨_, _, _, _, _, ⟨rfl, rfl, rfl, rfl, rfl⟩, h⟩
    exact h

/-- What `isCygwinPipeName` decides, on the tokens of the name. -/
theorem isCygwinPipeName_tokens (name : GoString) :
    isCygwinPipeName name = true ↔
      ∃ t0 t1 t2 t3 t4 rest, Split name dash = t0 :: t1 :: t2 :: t3 :: t4 :: rest ∧
        (t0 = lit "\\msys" ∨ t0 = lit "\\cygwin" ∨ t0 = lit "\\Device\\NamedPipe\\msys" ∨
          t0 = lit "\\Device\\NamedPipe\\cygwin") ∧
        t1 ≠ [] ∧ lit "pty" <+: t2 ∧ (t3 = lit "from" ∨ t3 = lit "to") ∧
        t4 = lit "master" :=
  classify_tokens (Split name dash) _ _ _ _ _ _ _ _

/-! ## The classifier -/

/-- C1: `isCygwinPipeName name` is true exactly when the tokens of `name`, split on `-`,
are at least five, the first one of the four accepted prefixes, the second non-empty,
the third starting with `pty`, the fourth `from` or `to` and the fifth `master`;
the two accepted and the four rejected names of the specification behave as listed, and
the comparison is case-sensitive. -/
theorem isCygwinPipeName_spec :
    (∀ name : GoString, isCygwinPipeName name = true ↔
      ∃ t0 t1 t2 t3 t4 rest, Split name dash = t0 :: t1 :: t2 :: t3 :: t4 :: rest ∧
        (t0 = lit "\\msys" ∨ t0 = lit "\\cygwin" ∨ t0 = lit "\\Device\\NamedPipe\\msys" ∨
          t0 = lit "\\Device\\NamedPipe\\cygwin") ∧
        t1 ≠ [] ∧ lit "pty" <+: t2 ∧ (t3 = lit "from" ∨ t3 = lit "to") ∧
        t4 = lit "master") ∧
    isCygwinPipeName (lit "\\msys-1234567890abcdef-pty3-from-master") = true ∧
    isCygwinPipeName (lit "\\cygwin-abc-pty0-to-master") = true ∧
    isCygwinPipeName (lit "\\msys-pty3-from-master") = false ∧
    isCygwinPipeName (lit "\\msys--pty3-from-master") = false ∧
    isCygwinPipeName (lit "\\msys-1234-ptyX-sideways-master") = false ∧
    isCygwinPipeName (lit "\\unknownprefix-1234-pty0-from-master") = false ∧
    isCygwinPipeName (lit "\\MSYS-1234-pty0-from-master") = false :=
  ⟨isCygwinPipeName_tokens, by decide, by decide, by decide, by decide, by decide, by decide,
    by decide⟩

/-- C9, as stated, fails: a name with a sixth token after `master` is accepted, it has six
tokens and does not end with `master`. -/
theorem isCygwinPipeName_extra_token_accepted :
    isCygwinPipeName (lit "\\msys-1234-pty0-from-master-extra") = true ∧
    (Split (lit "\\msys-1234-pty0-from-master-extra") dash).length = 6 ∧
    ¬ (lit "master" <:+ lit "\\msys-1234-pty0-from-master-extra") := by
  refine ⟨by decide, by decide, ?_⟩
  decide

/-- C9, amended: an accepted name has at least five tokens, the first five being an
accepted prefix, a non-empty identifier, a token starting with `pty`, `from` or `to`, and
`master`; the name is these tokens joined with `-`, followed by the tokens after the
fifth, which are not examined: with exactly five tokens the name ends with `master`, and
appending `-` and any text to an accepted name gives an accepted name. -/
theorem isCygwinPipeName_leading_tokens (name : GoString)
    (h : isCygwinPipeName name = true) :
    ∃ t0 t1 t2 t3 rest, Split name dash = t0 :: t1 :: t2 :: t3 :: lit "master" :: rest ∧
      name = Join (t0 :: t1 :: t2 :: t3 :: lit "master" :: rest) dash ∧
      (t0 = lit "\\msys" ∨ t0 = lit "\\cygwin" ∨ t0 = lit "\\Device\\NamedPipe\\msys" ∨
        t0 = lit "\\Device\\NamedPipe\\cygwin") ∧
      t1 ≠ [] ∧ lit "pty" <+: t2 ∧ (t3 = lit "from" ∨ t3 = lit "to") ∧
      (rest = [] → lit "master" <:+ name) ∧
      ∀ extra : GoString, isCygwinPipeName (name ++ dash :: extra) = true := by
  obtain ⟨t0, t1, t2, t3, t4, rest, hs, h0, h1, h2, h3, h4⟩ :=
    (isCygwinPipeName_tokens name).1 h
  subst h4
  have hj : name = Join (t0 :: t1 :: t2 :: t3 :: lit "master" :: rest) dash := by
    rw [← hs, Join_Split]
  refine ⟨t0, t1, t2, t3, rest, hs, hj, h0, h1, h2, h3, ?_, ?_⟩
  · intro hr
    subst hr
    refine ⟨t0 ++ dash :: (t1 ++ dash :: (t2 ++ dash :: (t3 ++ [dash]))), ?_⟩
    rw [hj]
    simp [Join]
  · intro extra
    rw [isCygwinPipeName_tokens]
    refine ⟨t0, t1, t2, t3, lit "master", rest ++ Split extra dash, ?_, h0, h1, h2, h3, rfl⟩
    rw [Split_append_sep, hs]
    rfl

/-- C9, amended, at the accepted name `\msys-1234-pty0-from-master-extra`. -/
theorem isCygwinPipeName_leading_tokens_witness :
    isCygwinPipeName (lit "\\msys-1234-pty0-from-master-extra") = true ∧
    ∃ t0 t1 t2 t3 rest,
      Split (lit "\\msys-1234-pty0-from-master-extra") dash =
        t0 :: t1 :: t2 :: t3 :: lit "master" :: rest ∧
      lit "\\msys-1234-pty0-from-master-extra" =
        Join (t0 :: t1 :: t2 :: t3 :: lit "master" :: rest) dash ∧
      (t0 = lit "\\msys" ∨ t0 = lit "\\cygwin" ∨ t0 = lit "\\Device\\NamedPipe\\msys" ∨
        t0 = lit "\\Device\\NamedPipe\\cygwin") ∧
      t1 ≠ [] ∧ lit "pty" <+: t2 ∧ (t3 = lit "from" ∨ t3 = lit "to") ∧
      (rest = [] → lit "master" <:+ lit "\\msys-1234-pty0-from-master-extra") ∧
      ∀ extra : GoString,
        isCygwinPipeName (lit "\\msys-1234-pty0-from-master-extra" ++ dash :: extra) = true :=
  ⟨by decide, isCygwinPipeName_leading_tokens _ (by decide)⟩

/-! ## Executions of the package -/

theorem bind_eq {α β : Type} (x : Exec α) (f : α → Exec β) : (x >>= f) = Exec.bind x f := rfl

theorem pure_eq {α : Type} (a : α) : (pure a : Exec α) = ⟨[], .ret a⟩ := rfl

theorem init_procGetConsoleMode (m : Machine) :
    (init m).procGetConsoleMode = some ⟨"GetConsoleMode", m.GetConsoleMode⟩ := by
  unfold init packageVars
  cases m.GetFileInformationByHandleEx <;> rfl

theorem init_procGetFileType (m : Machine) :
    (init m).procGetFileType = some ⟨"GetFileType", m.GetFileType⟩ := by
  unfold init packageVars
  cases m.GetFileInformationByHandleEx <;> rfl

theorem init_procNtQueryObject (m : Machine) :
    (init m).procNtQueryObject = some ⟨"NtQueryObject", m.NtQueryObject⟩ := by
  unfold init packageVars
  cases m.GetFileInformationByHandleEx <;> rfl

theorem init_procGetFileInformationByHandleEx (m : Machine) :
    (init m).procGetFileInformationByHandleEx =
      match m.GetFileInformationByHandleEx with
      | some q => some ⟨"GetFileInformationByHandleEx", some q⟩
      | none => none := by
  unfold init packageVars
  cases m.GetFileInformationByHandleEx <;> rfl

/-- C8: on a machine whose `kernel32.dll` exports `GetConsoleMode`, `IsTerminal fd` issues
that one query and returns a boolean, true exactly when the query returns a non-zero
result with error number 0; every failure of the query gives false. -/
theorem IsTerminal_spec (m : Machine) (fd : Nat) (q : Nat → Nat × Nat)
    (hq : m.GetConsoleMode = some q) :
    ((IsTerminal (init m) fd).out = .ret true ↔ (q fd).1 ≠ 0 ∧ (q fd).2 = 0) ∧
    (¬ ((q fd).1 ≠ 0 ∧ (q fd).2 = 0) → (IsTerminal (init m) fd).out = .ret false) ∧
    ∃ b : Bool, IsTerminal (init m) fd = ⟨[.GetConsoleMode fd], .ret b⟩ := by
  simp only [IsTerminal, init_procGetConsoleMode, hq, Addr, bind_eq, pure_eq, Exec.bind,
    Syscall]
  rcases hqf : q fd with ⟨r, e⟩
  simp

theorem array16_length (n : Nat) (w : List Nat) : (array16 n w).length = n := by
  simp [array16]

theorem array16_lt (n : Nat) (w : List Nat) (i : Nat) : (array16 n w).getD i 0 < 65536 := by
  rw [List.getD_eq_getElem?_getD]
  cases h : (array16 n w)[i]? with
  | none => simp
  | some u =>
    have hu : u ∈ array16 n w := List.getElem?_mem h
    have hu2 := List.mem_of_mem_take hu
    simp only [List.mem_append, List.mem_map, List.mem_replicate] at hu2
    rcases hu2 with ⟨x, _, rfl⟩ | ⟨_, rfl⟩
    · simpa using Nat.mod_lt x (by decide)
    · simp

theorem nameOffset_eq (result maxLength : Nat) (hm : maxLength < 65536)
    (hr : result < 65536) (h : maxLength < result) :
    nameOffset result maxLength = (result - maxLength) / 2 := by
  unfold nameOffset sub16
  rw [Nat.mod_eq_of_lt hm, Nat.mod_eq_of_lt hr]
  have : result + 65536 - maxLength = (result - maxLength) + 65536 := by omega
  rw [this, Nat.add_mod_right, Nat.mod_eq_of_lt (by omega)]

theorem nameEnd_eq (result maxLength : Nat) (hm : maxLength < 65536)
    (hr : result < 65536) (h : maxLength < result) :
    nameEnd result maxLength = (result - maxLength) / 2 + maxLength / 2 := by
  unfold nameEnd add16
  rw [nameOffset_eq result maxLength hm hr h, Nat.mod_eq_of_lt hm]
  have h1 : (result - maxLength) / 2 < 65536 := by omega
  have h2 : maxLength / 2 < 65536 := by omega
  rw [Nat.mod_eq_of_lt h1, Nat.mod_eq_of_lt h2, Nat.mod_eq_of_lt (by omega)]

/-- The execution of `getFileNameByHandle` on a machine that exports `NtQueryObject`. -/
theorem getFileNameByHandle_run (m : Machine) (fd : Nat) (q : Nat → NtQueryObjectReply)
    (hq : m.NtQueryObject = some q) :
    getFileNameByHandle (init m) fd =
      ⟨[.NtQueryObject fd 1 1040],
        if (q fd).r ≠ 0 then .ret ([], some (.Errno (q fd).e))
        else if (array16 520 (q fd).buf).getD 1 0 = 0 ∨
            (q fd).result % 65536 ≤ (array16 520 (q fd).buf).getD 1 0 then
          .ret ([], some (.errorString "cannot acquired file info or unnamed object"))
        else if nameOffset ((q fd).result % 65536) ((array16 520 (q fd).buf).getD 1 0) ≤
              nameEnd ((q fd).result % 65536) ((array16 520 (q fd).buf).getD 1 0) ∧
            nameEnd ((q fd).result % 65536) ((array16 520 (q fd).buf).getD 1 0) ≤ 520 then
          .ret (UTF16ToString
            (((array16 520 (q fd).buf).drop
              (nameOffset ((q fd).result % 65536) ((array16 520 (q fd).buf).getD 1 0))).take
              (nameEnd ((q fd).result % 65536) ((array16 520 (q fd).buf).getD 1 0) -
                nameOffset ((q fd).result % 65536) ((array16 520 (q fd).buf).getD 1 0))), none)
        else .panic⟩ := by
  simp only [getFileNameByHandle, init_procNtQueryObject, hq, Addr, bind_eq, pure_eq,
    Exec.bind, Syscall, slice, panic, array16_length, objectNameInfo, MAX_PATH]
  split_ifs <;> simp_all

/-! ## Strategy A: `getFileNameByHandle` -/

/-- C3, the code at the failing input: on a machine whose `ntdll.dll` does not export
`NtQueryObject`, `init` leaves `procNtQueryObject` non-nil, so `getFileNameByHandle`
passes its nil check and panics in `Addr` instead of returning an error, and
`IsCygwinTerminal` panics with it, although strategy B alone retrieves a pty name. -/
theorem getFileNameByHandle_without_NtQueryObject :
    machineWithoutNtQueryObject.NtQueryObject.isNone = true ∧
    (init machineWithoutNtQueryObject).procNtQueryObject.isSome = true ∧
    getFileNameByHandle (init machineWithoutNtQueryObject) 5 = ⟨[], .panic⟩ ∧
    IsCygwinTerminal (init machineWithoutNtQueryObject) 5 = ⟨[], .panic⟩ ∧
    (getFileNameByHandleEx (init machineWithoutNtQueryObject) 5).out =
      .ret (lit "\\msys-1234-pty0-from-master", none) ∧
    isCygwinPipeName (lit "\\msys-1234-pty0-from-master") = true := by
  refine ⟨rfl, rfl, by decide, by decide, by decide, by decide⟩

/-- C4, as stated, fails: `NtQueryObject` succeeds with `Name.MaximumLength = 2000` and
the reported length 3000, so neither `maxLength == 0` nor `result <= maxLength` holds,
and `getFileNameByHandle` returns no name: the slice `buf[500:1500]` of the 520-unit
buffer panics. -/
theorem getFileNameByHandle_returns_no_name :
    (array16 520 [0, 2000]).getD 1 0 = 2000 ∧
    ¬ ((2000 : Nat) = 0 ∨ (3000 : Nat) % 65536 ≤ 2000) ∧
    nameOffset 3000 2000 = 500 ∧ nameEnd 3000 2000 = 1500 ∧
    getFileNameByHandle (init (lengthMachine 2000 3000)) 1 =
      ⟨[.NtQueryObject 1 1 1040], .panic⟩ := by
  refine ⟨by decide, by decide, by decide, by decide, by decide⟩

/-- C4, amended: after a successful `NtQueryObject` call, `getFileNameByHandle` returns an
error exactly when `maxLength == 0` or `result <= maxLength`, and then together with the
empty string; in every other case in which the slice bounds stay within the 520 units
of the buffer it returns a name with a nil error. -/
theorem getFileNameByHandle_error_iff (m : Machine) (fd : Nat)
    (q : Nat → NtQueryObjectReply) (hq : m.NtQueryObject = some q) (hr : (q fd).r = 0)
    (buf : List Nat) (hbuf : buf = array16 520 (q fd).buf)
    (maxLength : Nat) (hmax : maxLength = buf.getD 1 0)
    (result : Nat) (hres : result = (q fd).result % 65536) :
    ((∃ name err, (getFileNameByHandle (init m) fd).out = .ret (name, some err)) ↔
      (maxLength = 0 ∨ result ≤ maxLength)) ∧
    ((maxLength = 0 ∨ result ≤ maxLength) →
      (getFileNameByHandle (init m) fd).out =
        .ret ([], some (.errorString "cannot acquired file info or unnamed object"))) ∧
    (¬ (maxLength = 0 ∨ result ≤ maxLength) →
      (result - maxLength) / 2 + maxLength / 2 ≤ 520 →
      ∃ name, (getFileNameByHandle (init m) fd).out = .ret (name, none)) := by
  subst hbuf hmax hres
  have hm16 := array16_lt 520 (q fd).buf 1
  have hr16 : (q fd).result % 65536 < 65536 := Nat.mod_lt _ (by decide)
  rw [getFileNameByHandle_run m fd q hq]
  simp only [hr, ne_eq, not_true_eq_false, if_false]
  by_cases hc : (array16 520 (q fd).buf).getD 1 0 = 0 ∨
      (q fd).result % 65536 ≤ (array16 520 (q fd).buf).getD 1 0
  · rw [if_pos hc]
    exact ⟨⟨fun _ => hc, fun _ => ⟨_, _, rfl⟩⟩, fun _ => rfl, fun h => absurd hc h⟩
  · have hlt : (array16 520 (q fd).buf).getD 1 0 < (q fd).result % 65536 := by omega
    rw [if_neg hc, nameOffset_eq _ _ hm16 hr16 hlt, nameEnd_eq _ _ hm16 hr16 hlt]
    refine ⟨?_, fun h => absurd h hc, ?_⟩
    · constructor
      · rintro ⟨name, err, h⟩
        split_ifs at h
        simp at h
      · intro h
        exact absurd h hc
    · intro _ hin
      rw [if_pos ⟨by omega, hin⟩]
      exact ⟨_, rfl⟩

/-- C4, amended, at descriptor 5 of a machine whose pipe is named
`\msys-12-pty3-from-master`. -/
theorem getFileNameByHandle_error_iff_witness :
    ((∃ name err, (getFileNameByHandle (init (ptyMachine "\\msys-12-pty3-from-master" "")) 5).out
        = .ret (name, some err)) ↔ ((52 : Nat) = 0 ∨ (68 : Nat) ≤ 52)) ∧
    (((52 : Nat) = 0 ∨ (68 : Nat) ≤ 52) →
      (getFileNameByHandle (init (ptyMachine "\\msys-12-pty3-from-master" "")) 5).out =
        .ret ([], some (.errorString "cannot acquired file info or unnamed object"))) ∧
    (¬ ((52 : Nat) = 0 ∨ (68 : Nat) ≤ 52) → (68 - 52) / 2 + 52 / 2 ≤ 520 →
      ∃ name, (getFileNameByHandle (init (ptyMachine "\\msys-12-pty3-from-master" "")) 5).out
        = .ret (name, none)) :=
  getFileNameByHandle_error_iff (ptyMachine "\\msys-12-pty3-from-master" "") 5 _ rfl
    (by decide) _ rfl 52 (by decide) 68 (by decide)

/-- C5, as stated, fails: `NtQueryObject` succeeds with `Name.MaximumLength = 600` and the
reported length 1700, so `maxLength != 0` and `result > maxLength`, and the function does
not return the decoding of `buf[550:850]`: that slice of the 520-unit buffer panics. -/
theorem getFileNameByHandle_slice_out_of_range :
    (array16 520 [0, 600]).getD 1 0 = 600 ∧ (600 : Nat) ≠ 0 ∧ (600 : Nat) < 1700 % 65536 ∧
    (1700 - 600) / 2 = 550 ∧ (1700 - 600) / 2 + 600 / 2 = 850 ∧
    (getFileNameByHandle (init (lengthMachine 600 1700)) 1).out = .panic ∧
    (getFileNameByHandle (init (lengthMachine 600 1700)) 1).out ≠
      .ret (UTF16ToString (((array16 520 [0, 600]).drop 550).take 300), none) := by
  refine ⟨by decide, by decide, by decide, by decide, by decide, by decide, by decide⟩

/-- C5, amended: after a successful `NtQueryObject` call with `maxLength = buf[1] != 0` and
`result > maxLength`, whenever the bounds stay within the 520 units of the buffer
(`(result - maxLength)/2 + maxLength/2 <= 520`), `getFileNameByHandle` returns, with a nil
error, the UTF-16 decoding up to the first NUL unit of the `maxLength/2` units of `buf`
that start at index `(result - maxLength)/2`. -/
theorem getFileNameByHandle_name (m : Machine) (fd : Nat)
    (q : Nat → NtQueryObjectReply) (hq : m.NtQueryObject = some q) (hr : (q fd).r = 0)
    (buf : List Nat) (hbuf : buf = array16 520 (q fd).buf)
    (maxLength : Nat) (hmax : maxLength = buf.getD 1 0)
    (result : Nat) (hres : result = (q fd).result % 65536)
    (hm : maxLength ≠ 0) (hlt : maxLength < result)
    (hin : (result - maxLength) / 2 + maxLength / 2 ≤ 520) :
    getFileNameByHandle (init m) fd =
      ⟨[.NtQueryObject fd 1 1040],
        .ret (UTF16ToString ((buf.drop ((result - maxLength) / 2)).take (maxLength / 2)),
          none)⟩ ∧
    ((buf.drop ((result - maxLength) / 2)).take (maxLength / 2)).length = maxLength / 2 ∧
    buf.length = 520 := by
  subst hbuf hmax hres
  have hm16 := array16_lt 520 (q fd).buf 1
  have hr16 : (q fd).result % 65536 < 65536 := Nat.mod_lt _ (by decide)
  have hc : ¬ ((array16 520 (q fd).buf).getD 1 0 = 0 ∨
      (q fd).result % 65536 ≤ (array16 520 (q fd).buf).getD 1 0) := by omega
  refine ⟨?_, ?_, array16_length _ _⟩
  · rw [getFileNameByHandle_run m fd q hq]
    simp only [hr, ne_eq, not_true_eq_false, if_false]
    rw [if_neg hc, nameOffset_eq _ _ hm16 hr16 hlt, nameEnd_eq _ _ hm16 hr16 hlt,
      if_pos ⟨by omega, hin⟩, Nat.add_sub_cancel_left]
  · rw [List.length_take, List.length_drop, array16_length]
    omega

/-- C5, amended, at descriptor 5 of a machine whose pipe is named
`\msys-12-pty3-from-master`: the name starts at unit 8 and spans 26 units. -/
theorem getFileNameByHandle_name_witness :
    getFileNameByHandle (init (ptyMachine "\\msys-12-pty3-from-master" "")) 5 =
      ⟨[.NtQueryObject 5 1 1040], .ret (lit "\\msys-12-pty3-from-master", none)⟩ := by
  have h := (getFileNameByHandle_name (ptyMachine "\\msys-12-pty3-from-master" "") 5 _ rfl
    (by decide) _ rfl 52 (by decide) 68 (by decide) (by decide) (by decide) (by decide)).1
  rw [h]
  decide

/-- C10: for 16-bit `maxLength` and `result` with `maxLength != 0`, `maxLength < result` and
`result <= 1040`, the bounds `offset` and `end` are computed without wrap-around and
satisfy `offset <= end <= 520`, so the slice of a 520-unit buffer does not panic, and
`getFileNameByHandle` does not panic on any reply whose reported length is at most 1040;
without that bound some values put `end` beyond 520 and the function panics. -/
theorem getFileNameByHandle_slice_in_range :
    (∀ result maxLength : Nat, maxLength < 65536 → result < 65536 → maxLength ≠ 0 →
      maxLength < result → result ≤ 1040 →
        nameOffset result maxLength = (result - maxLength) / 2 ∧
        nameEnd result maxLength = nameOffset result maxLength + maxLength / 2 ∧
        nameOffset result maxLength ≤ nameEnd result maxLength ∧
        nameEnd result maxLength ≤ 520 ∧
        ∀ buf : List Nat, buf.length = 520 →
          (slice buf (nameOffset result maxLength) (nameEnd result maxLength)).out =
            .ret ((buf.drop (nameOffset result maxLength)).take (maxLength / 2))) ∧
    (∀ (m : Machine) (fd : Nat) (q : Nat → NtQueryObjectReply),
      m.NtQueryObject = some q → (q fd).result % 65536 ≤ 1040 →
        (getFileNameByHandle (init m) fd).out ≠ .panic) ∧
    (∃ result maxLength : Nat, maxLength < 65536 ∧ result < 65536 ∧ maxLength ≠ 0 ∧
      maxLength < result ∧ 520 < nameEnd result maxLength ∧
      (getFileNameByHandle (init (lengthMachine maxLength result)) 1).out = .panic) := by
  refine ⟨?_, ?_, ⟨1042, 2, by decide, by decide, by decide, by decide, by decide, by decide⟩⟩
  · intro result maxLength hm hr _ hlt hle
    have ho := nameOffset_eq result maxLength hm hr hlt
    have he := nameEnd_eq result maxLength hm hr hlt
    refine ⟨ho, by rw [he, ho], by rw [he, ho]; omega, by rw [he]; omega, ?_⟩
    intro buf hb
    have h1 : nameOffset result maxLength ≤ nameEnd result maxLength := by
      rw [he, ho]; omega
    have h2 : nameEnd result maxLength ≤ buf.length := by rw [he, hb]; omega
    have h3 : nameEnd result maxLength - nameOffset result maxLength = maxLength / 2 := by
      rw [he, ho]; omega
    simp only [slice, h1, h2, and_self, if_true, pure_eq, h3]
  · intro m fd q hq hle
    have hm16 := array16_lt 520 (q fd).buf 1
    have hr16 : (q fd).result % 65536 < 65536 := Nat.mod_lt _ (by decide)
    rw [getFileNameByHandle_run m fd q hq]
    simp only
    split_ifs with h1 h2 h3
    · simp
    · simp
    · simp
    · exfalso
      have hlt : (array16 520 (q fd).buf).getD 1 0 < (q fd).result % 65536 := by omega
      rw [nameOffset_eq _ _ hm16 hr16 hlt, nameEnd_eq _ _ hm16 hr16 hlt] at h3
      omega

/-- C10 at `maxLength = 52` and `result = 68`: the bounds are 8 and 34. -/
theorem getFileNameByHandle_slice_in_range_witness :
    nameOffset 68 52 = (68 - 52) / 2 ∧
    nameEnd 68 52 = nameOffset 68 52 + 52 / 2 ∧
    nameOffset 68 52 ≤ nameEnd 68 52 ∧
    nameEnd 68 52 ≤ 520 ∧
    ∀ buf : List Nat, buf.length = 520 →
      (slice buf (nameOffset 68 52) (nameEnd 68 52)).out =
        .ret ((buf.drop (nameOffset 68 52)).take (52 / 2)) :=
  getFileNameByHandle_slice_in_range.1 68 52 (by decide) (by decide) (by decide)
    (by decide) (by decide)

/-! ## Strategy B: `getFileNameByHandleEx` -/

/-- The execution of `getFileNameByHandleEx` on a machine that does not export
`GetFileInformationByHandleEx`. -/
theorem getFileNameByHandleEx_unsupported (m : Machine) (fd : Nat)
    (hq : m.GetFileInformationByHandleEx = none) :
    getFileNameByHandleEx (init m) fd =
      ⟨[], .ret ([], some (.errorString
        "kernel32.dll: GetFileInformationByHandleEx not supported"))⟩ := by
  simp only [getFileNameByHandleEx, init_procGetFileInformationByHandleEx, hq, pure_eq]

/-- The execution of `getFileNameByHandleEx` on a machine that exports `GetFileType` and
`GetFileInformationByHandleEx`. -/
theorem getFileNameByHandleEx_run (m : Machine) (fd : Nat) (t : Nat → Nat × Nat)
    (q : Nat → FileInfoReply) (ht : m.GetFileType = some t)
    (hq : m.GetFileInformationByHandleEx = some q) :
    getFileNameByHandleEx (init m) fd =
      if (t fd).1 ≠ 3 ∨ (t fd).2 ≠ 0 then
        ⟨[.GetFileType fd], .ret ([], some (.Errno (t fd).2))⟩
      else
        ⟨[.GetFileType fd, .GetFileInformationByHandleEx fd 2 524],
          if (q fd).r = 0 ∨ (q fd).e ≠ 0 then .ret ([], some (.Errno (q fd).e))
          else if 2 ≤ (2 + nameLength (array16 262 (q fd).buf) / 2) % 4294967296 ∧
              (2 + nameLength (array16 262 (q fd).buf) / 2) % 4294967296 ≤ 262 then
            .ret (UTF16ToString (((array16 262 (q fd).buf).drop 2).take
              ((2 + nameLength (array16 262 (q fd).buf) / 2) % 4294967296 - 2)), none)
          else .panic⟩ := by
  simp only [getFileNameByHandleEx, init_procGetFileInformationByHandleEx,
    init_procGetFileType, ht, hq, Addr, bind_eq, pure_eq, Exec.bind, Syscall, slice, panic,
    array16_length, fileNameInfo, fileTypePipe, MAX_PATH]
  rcases t fd with ⟨ft, e⟩
  split_ifs <;> simp_all

/-- C7: on a pipe, after a successful extended query whose buffer starts with the 32-bit
length `l = buf[0] + 65536 * buf[1] <= 520`, `getFileNameByHandleEx` returns, with a nil
error, the UTF-16 decoding up to the first NUL unit of the `l/2` units `buf[2 : 2 + l/2]`
that follow the length. -/
theorem getFileNameByHandleEx_name (m : Machine) (fd : Nat) (t : Nat → Nat × Nat)
    (q : Nat → FileInfoReply) (ht : m.GetFileType = some t)
    (hq : m.GetFileInformationByHandleEx = some q) (hpipe : t fd = (3, 0))
    (hr : (q fd).r ≠ 0) (he : (q fd).e = 0)
    (buf : List Nat) (hbuf : buf = array16 262 (q fd).buf)
    (l : Nat) (hl : l = buf.getD 0 0 + 65536 * buf.getD 1 0) (hle : l ≤ 520) :
    getFileNameByHandleEx (init m) fd =
      ⟨[.GetFileType fd, .GetFileInformationByHandleEx fd 2 524],
        .ret (UTF16ToString ((buf.drop 2).take (l / 2)), none)⟩ ∧
    ((buf.drop 2).take (l / 2)).length = l / 2 ∧ buf.length = 262 := by
  subst hbuf
  have h0 := array16_lt 262 (q fd).buf 0
  have h1 := array16_lt 262 (q fd).buf 1
  have hn : nameLength (array16 262 (q fd).buf) = l := by
    unfold nameLength
    rw [Nat.mod_eq_of_lt h0, Nat.mod_eq_of_lt h1, ← hl, Nat.mod_eq_of_lt (by omega)]
  have hhi : (2 + l / 2) % 4294967296 = 2 + l / 2 := Nat.mod_eq_of_lt (by omega)
  refine ⟨?_, ?_, array16_length _ _⟩
  · rw [getFileNameByHandleEx_run m fd t q ht hq, hpipe, hn, hhi]
    have hc : ¬ ((q fd).r = 0 ∨ (q fd).e ≠ 0) := by
      rintro (h | h)
      · exact hr h
      · exact h he
    simp only [ne_eq, not_true_eq_false, or_self, if_false]
    rw [if_neg hc, if_pos ⟨by omega, by omega⟩, Nat.add_sub_cancel_left]
  · rw [List.length_take, List.length_drop, array16_length]
    omega

/-- C7 at descriptor 5 of a machine whose pipe is named `\msys-12-pty3-from-master`:
the length prefix is 50 and the name is the 25 units after it. -/
theorem getFileNameByHandleEx_name_witness :
    getFileNameByHandleEx (init (ptyMachine "" "\\msys-12-pty3-from-master")) 5 =
      ⟨[.GetFileType 5, .GetFileInformationByHandleEx 5 2 524],
        .ret (lit "\\msys-12-pty3-from-master", none)⟩ := by
  have h := (getFileNameByHandleEx_name (ptyMachine "" "\\msys-12-pty3-from-master") 5 _ _
    rfl rfl (by decide) (by decide) (by decide) _ rfl 50 (by decide) (by decide)).1
  rw [h]
  decide

/-! ## The orchestration: `IsCygwinTerminal` -/

/-- The execution of `IsCygwinTerminal` when strategy A returns a non-empty name with a
nil error: strategy B is not run. -/
theorem IsCygwinTerminal_of_first (v : Vars) (fd : Nat) (nameA : GoString)
    (hA : (getFileNameByHandle v fd).out = .ret (nameA, none)) (hne : nameA ≠ []) :
    IsCygwinTerminal v fd =
      ⟨(getFileNameByHandle v fd).calls, .ret (isCygwinPipeName nameA)⟩ := by
  have hpos : 0 < nameA.length := List.length_pos.2 hne
  simp only [IsCygwinTerminal, bind_eq, pure_eq, Exec.bind, hA]
  simp [hpos]

/-- The execution of `IsCygwinTerminal` when strategy A returns an error or an empty
name: the result is decided by what strategy B returns. -/
theorem IsCygwinTerminal_of_second (v : Vars) (fd : Nat) (nameA nameB : GoString)
    (errA errB : Option GoError)
    (hA : (getFileNameByHandle v fd).out = .ret (nameA, errA))
    (hfail : errA ≠ none ∨ nameA = [])
    (hB : (getFileNameByHandleEx v fd).out = .ret (nameB, errB)) :
    IsCygwinTerminal v fd =
      ⟨(getFileNameByHandle v fd).calls ++ (getFileNameByHandleEx v fd).calls,
        .ret (if errB = none ∧ nameB ≠ [] then isCygwinPipeName nameB else false)⟩ := by
  have hc : ¬ (errA = none ∧ nameA.length > 0) := by
    rintro ⟨h1, h2⟩
    rcases hfail with h | h
    · exact h h1
    · rw [h] at h2
      exact absurd h2 (by decide)
  simp only [IsCygwinTerminal, bind_eq, pure_eq, Exec.bind, hA, hB, if_neg hc]
  by_cases hb : errB = none ∧ nameB ≠ []
  · have hb2 : errB = none ∧ nameB.length > 0 := ⟨hb.1, List.length_pos.2 hb.2⟩
    simp [hb, hb2]
  · have hb2 : ¬ (errB = none ∧ nameB.length > 0) := fun h => hb ⟨h.1, List.length_pos.1 h.2⟩
    simp [hb, hb2]

/-- C2, as stated, fails: on descriptor 5 strategy A does not succeed (its slice
`buf[550:900]` of the 520-unit buffer panics) and strategy B alone returns the non-empty,
accepted name `\msys-1234-pty0-from-master` with a nil error, yet `IsCygwinTerminal` does
not return `isCygwinPipeName` of that name, nor any boolean: it panics after the
`NtQueryObject` call, without running strategy B. -/
theorem IsCygwinTerminal_panics_with_strategy :
    (getFileNameByHandle (init overlongMachine) 5).out = .panic ∧
    (getFileNameByHandleEx (init overlongMachine) 5).out =
      .ret (lit "\\msys-1234-pty0-from-master", none) ∧
    lit "\\msys-1234-pty0-from-master" ≠ [] ∧
    isCygwinPipeName (lit "\\msys-1234-pty0-from-master") = true ∧
    IsCygwinTerminal (init overlongMachine) 5 = ⟨[.NtQueryObject 5 1 1040], .panic⟩ ∧
    (IsCygwinTerminal (init overlongMachine) 5).out ≠ .ret true ∧
    (IsCygwinTerminal (init overlongMachine) 5).out ≠ .ret false := by
  refine ⟨by decide, by decide, by decide, by decide, by decide, by decide, by decide⟩

/-- C2, amended: whenever the strategies it runs return, `IsCygwinTerminal fd` returns
`isCygwinPipeName nameA` when strategy A returns a non-empty `nameA` with a nil error,
without running strategy B; when strategy A returns an error or an empty name, it returns
`isCygwinPipeName nameB` if strategy B returns a non-empty `nameB` with a nil error, and
false if strategy B returns an error or an empty name. Whatever the two strategies
return, the caller gets a boolean and no error. -/
theorem IsCygwinTerminal_spec (v : Vars) (fd : Nat) :
    (∀ nameA, (getFileNameByHandle v fd).out = .ret (nameA, none) → nameA ≠ [] →
      IsCygwinTerminal v fd =
        ⟨(getFileNameByHandle v fd).calls, .ret (isCygwinPipeName nameA)⟩) ∧
    (∀ nameA errA nameB, (getFileNameByHandle v fd).out = .ret (nameA, errA) →
      (errA ≠ none ∨ nameA = []) →
      (getFileNameByHandleEx v fd).out = .ret (nameB, none) → nameB ≠ [] →
      IsCygwinTerminal v fd =
        ⟨(getFileNameByHandle v fd).calls ++ (getFileNameByHandleEx v fd).calls,
          .ret (isCygwinPipeName nameB)⟩) ∧
    (∀ nameA errA nameB errB, (getFileNameByHandle v fd).out = .ret (nameA, errA) →
      (errA ≠ none ∨ nameA = []) →
      (getFileNameByHandleEx v fd).out = .ret (nameB, errB) →
      (errB ≠ none ∨ nameB = []) →
      IsCygwinTerminal v fd =
        ⟨(getFileNameByHandle v fd).calls ++ (getFileNameByHandleEx v fd).calls,
          .ret false⟩) ∧
    (∀ ra rb, (getFileNameByHandle v fd).out = .ret ra →
      (getFileNameByHandleEx v fd).out = .ret rb →
      ∃ b : Bool, (IsCygwinTerminal v fd).out = .ret b) := by
  refine ⟨fun nameA hA hne => IsCygwinTerminal_of_first v fd nameA hA hne, ?_, ?_, ?_⟩
  · intro nameA errA nameB hA hfail hB hne
    rw [IsCygwinTerminal_of_second v fd nameA nameB errA none hA hfail hB]
    simp [hne]
  · intro nameA errA nameB errB hA hfail hB hfailB
    rw [IsCygwinTerminal_of_second v fd nameA nameB errA errB hA hfail hB]
    have : ¬ (errB = none ∧ nameB ≠ []) := by
      rintro ⟨h1, h2⟩
      rcases hfailB with h | h
      · exact h h1
      · exact h2 h
    simp [this]
  · rintro ⟨nameA, errA⟩ ⟨nameB, errB⟩ hA hB
    by_cases hs : errA = none ∧ nameA ≠ []
    · obtain ⟨h1, h2⟩ := hs
      subst h1
      rw [IsCygwinTerminal_of_first v fd nameA hA h2]
      exact ⟨_, rfl⟩
    · have hfail : errA ≠ none ∨ nameA = [] := by
        by_cases h : errA = none
        · exact Or.inr (by_contra fun h2 => hs ⟨h, h2⟩)
        · exact Or.inl h
      rw [IsCygwinTerminal_of_second v fd nameA nameB errA errB hA hfail hB]
      exact ⟨_, rfl⟩

/-- C2, amended, at descriptor 5 of a machine on which strategy A retrieves the rejected name
`\other-12-pty3-from-master` and strategy B would retrieve the accepted name
`\msys-12-pty3-from-master`: the result is false and only `NtQueryObject` is called. -/
theorem IsCygwinTerminal_spec_witness :
    (getFileNameByHandle
      (init (ptyMachine "\\other-12-pty3-from-master" "\\msys-12-pty3-from-master")) 5).out =
      .ret (lit "\\other-12-pty3-from-master", none) ∧
    (getFileNameByHandleEx
      (init (ptyMachine "\\other-12-pty3-from-master" "\\msys-12-pty3-from-master")) 5).out =
      .ret (lit "\\msys-12-pty3-from-master", none) ∧
    isCygwinPipeName (lit "\\msys-12-pty3-from-master") = true ∧
    IsCygwinTerminal
      (init (ptyMachine "\\other-12-pty3-from-master" "\\msys-12-pty3-from-master")) 5 =
      ⟨[.NtQueryObject 5 1 1040], .ret false⟩ :=
  ⟨by decide, by decide, by decide,
    ((IsCygwinTerminal_spec
      (init (ptyMachine "\\other-12-pty3-from-master" "\\msys-12-pty3-from-master")) 5).1
      (lit "\\other-12-pty3-from-master") (by decide) (by decide)).trans (by decide)⟩

/-- C6: when the file-type query does not report a pipe, `getFileNameByHandleEx` returns
the empty name with a non-nil error, also when the query reports the error number 0 (the
error is then `Errno 0`), and it never issues the extended query; `IsCygwinTerminal`
then returns what strategy A alone decides, false when strategy A gave no name. -/
theorem getFileNameByHandleEx_not_pipe (m : Machine) (fd : Nat) (t : Nat → Nat × Nat)
    (ht : m.GetFileType = some t) (hft : (t fd).1 ≠ 3) :
    (∃ err, (getFileNameByHandleEx (init m) fd).out = .ret ([], some err)) ∧
    (∀ fd2 a b,
      SysCall.GetFileInformationByHandleEx fd2 a b ∉ (getFileNameByHandleEx (init m) fd).calls) ∧
    (∀ q, m.GetFileInformationByHandleEx = some q →
      getFileNameByHandleEx (init m) fd =
        ⟨[.GetFileType fd], .ret ([], some (.Errno (t fd).2))⟩) ∧
    (∀ nameA errA, (getFileNameByHandle (init m) fd).out = .ret (nameA, errA) →
      (IsCygwinTerminal (init m) fd).out =
        .ret (if errA = none ∧ nameA ≠ [] then isCygwinPipeName nameA else false)) := by
  have hrun : ∀ q, m.GetFileInformationByHandleEx = some q →
      getFileNameByHandleEx (init m) fd =
        ⟨[.GetFileType fd], .ret ([], some (.Errno (t fd).2))⟩ := by
    intro q hq
    rw [getFileNameByHandleEx_run m fd t q ht hq, if_pos (Or.inl hft)]
  have hout : ∃ err, getFileNameByHandleEx (init m) fd = ⟨[], .ret ([], some err)⟩ ∨
      getFileNameByHandleEx (init m) fd = ⟨[.GetFileType fd], .ret ([], some err)⟩ := by
    cases hq : m.GetFileInformationByHandleEx with
    | none => exact ⟨_, Or.inl (getFileNameByHandleEx_unsupported m fd hq)⟩
    | some q => exact ⟨_, Or.inr (hrun q hq)⟩
  obtain ⟨err, hout⟩ := hout
  have hB : (getFileNameByHandleEx (init m) fd).out = .ret ([], some err) := by
    rcases hout with h | h <;> rw [h]
  refine ⟨⟨err, hB⟩, ?_, hrun, ?_⟩
  · intro fd2 a b
    rcases hout with h | h <;> rw [h] <;> simp
  · intro nameA errA hA
    by_cases hs : errA = none ∧ nameA ≠ []
    · obtain ⟨h1, h2⟩ := hs
      subst h1
      rw [IsCygwinTerminal_of_first (init m) fd nameA hA h2]
      simp [h2]
    · have hfail : errA ≠ none ∨ nameA = [] := by
        by_cases h : errA = none
        · exact Or.inr (by_contra fun h2 => hs ⟨h, h2⟩)
        · exact Or.inl h
      rw [IsCygwinTerminal_of_second (init m) fd nameA [] errA (some err) hA hfail hB]
      simp [hs]

/-- C6 at descriptor 0 of the test machine, a console: the file-type query answers 2
with the error number 0, and `getFileNameByHandleEx` returns the error `Errno 0`. -/
theorem getFileNameByHandleEx_not_pipe_witness :
    getFileNameByHandleEx (init (ptyMachine "" "")) 0 =
      ⟨[.GetFileType 0], .ret ([], some (.Errno 0))⟩ ∧
    (IsCygwinTerminal (init (ptyMachine "" "")) 0).out = .ret false :=
  ⟨((getFileNameByHandleEx_not_pipe (ptyMachine "" "") 0 _ rfl (by decide)).2.2.1 _ rfl).trans
      (by decide),
    by decide⟩

/-- C8 at descriptors 0 (a console) and 5 (a pipe) of the test machine. -/
theorem IsTerminal_spec_witness :
    (IsTerminal (init (ptyMachine "" "")) 0).out = .ret true ∧
    (IsTerminal (init (ptyMachine "" "")) 5).out = .ret false :=
  ⟨(IsTerminal_spec (ptyMachine "" "") 0 _ rfl).1.2 (by decide),
    (IsTerminal_spec (ptyMachine "" "") 5 _ rfl).2.1 (by decide)⟩

end Isatty
